import Mathlib

/-!
# Verification of the btcwire message framing layer

A shallow embedding of the bitcoin wire-protocol framing code
(`message.go` and `msgversion.go` of the `btcwire` package) together
with proofs of the specified properties.

Byte streams are modelled as `List Nat` (each element one byte); reading
consumes from the front.  `io.ReadFull` semantics: a read of `n` bytes
consumes `min n (length of stream)` bytes and fails when fewer than `n`
bytes are available.  Machine integers are `Nat`/`Int` with explicit
reductions modulo `2^w` where the code relies on fixed width.
-/

/-- Decidable equality for `Except`, used to evaluate the codec results
on concrete inputs. -/
instance {ε α : Type} [DecidableEq ε] [DecidableEq α] : DecidableEq (Except ε α) := fun x y =>
  match x, y with
  | .error a, .error b =>
    if h : a = b then .isTrue (by rw [h]) else .isFalse (by intro he; cases he; exact h rfl)
  | .error _, .ok _ => .isFalse (by intro he; cases he)
  | .ok _, .error _ => .isFalse (by intro he; cases he)
  | .ok a, .ok b =>
    if h : a = b then .isTrue (by rw [h]) else .isFalse (by intro he; cases he; exact h rfl)

namespace Btcwire

/-! ## Byte-level primitives

Modelled from the spec: the primitive binary codec for fixed-width
integers (little-endian, "the protocol's fixed byte order"), byte
arrays, variable-length integers and strings is an external
collaborator, not part of the two source files. -/

/-- Little-endian encoding of `n` into exactly `w` bytes (the fixed byte
order of the primitive codec). -/
def natToBytesLE : Nat → Nat → List Nat
  | 0, _ => []
  | w + 1, n => n % 256 :: natToBytesLE w (n / 256)

/-- Little-endian decoding of a byte list into a natural number. -/
def bytesToNatLE : List Nat → Nat
  | [] => 0
  | b :: bs => b + 256 * bytesToNatLE bs

/-- `io.ReadFull r buf` for a buffer of `n` bytes: returns the bytes read
when the stream holds at least `n`, and in every case consumes
`min n (stream length)` bytes. -/
def readFull (n : Nat) (s : List Nat) : Option (List Nat) × List Nat :=
  (if n ≤ s.length then some (s.take n) else none, s.drop n)

theorem natToBytesLE_length : ∀ (w n : Nat), (natToBytesLE w n).length = w
  | 0, _ => rfl
  | w + 1, n => by simpa [natToBytesLE] using natToBytesLE_length w (n / 256)

theorem bytesToNatLE_natToBytesLE (w n : Nat) :
    bytesToNatLE (natToBytesLE w n) = n % 2 ^ (8 * w) := by
  induction w generalizing n with
  | zero => simp [natToBytesLE, bytesToNatLE, Nat.mod_one]
  | succ w ih =>
    have h256 : (2 : Nat) ^ (8 * (w + 1)) = 256 * 2 ^ (8 * w) := by
      rw [Nat.mul_add, Nat.pow_add]; ring
    rw [natToBytesLE, bytesToNatLE, ih, h256, Nat.mod_mul]

theorem readFull_append (a r : List Nat) :
    readFull a.length (a ++ r) = (some a, r) := by
  simp [readFull]

/-- `readFull` at an exact-length front segment, phrased for rewriting. -/
theorem readFull_append_of_length {n : Nat} (a r : List Nat) (h : a.length = n) :
    readFull n (a ++ r) = (some a, r) := by
  subst h; exact readFull_append a r

/-! ## Stream discard utility (`discardInput`)

The source reads `n` bytes in bounded chunks and drops them:
`maxSize = 10*1024`, `numReads = n / maxSize` full-chunk reads of
`maxSize` bytes each, then one read of `n % maxSize` bytes when the
remainder is nonzero.  The results of `io.ReadFull` are ignored, so the
function can never report an error to its caller.  `discardChunks n` is
the sequence of read sizes the loop issues, in order. -/

/-- The chunk buffer size used by `discardInput`: 10k at a time. -/
def discardMaxSize : Nat := 10 * 1024

/-- The sizes of the reads `discardInput` issues for a request of `n`
bytes: `n / maxSize` reads of a full chunk, then the remainder. -/
def discardChunks (n : Nat) : List Nat :=
  List.replicate (n / discardMaxSize) discardMaxSize ++
    (if n % discardMaxSize > 0 then [n % discardMaxSize] else [])

/-- `discardInput r n`: the stream remaining after the chunked reads.
Each `io.ReadFull` consumes `min (chunk) (remaining length)` bytes. -/
def discardInput (s : List Nat) (n : Nat) : List Nat :=
  (discardChunks n).foldl (fun st c => st.drop c) s

theorem foldl_drop_replicate (k c : Nat) (s : List Nat) :
    (List.replicate k c).foldl (fun st x => st.drop x) s = s.drop (k * c) := by
  induction k generalizing s with
  | zero => simp
  | succ k ih =>
    rw [List.replicate_succ, List.foldl_cons, ih, List.drop_drop]
    ring_nf

theorem discardInput_drop (s : List Nat) (n : Nat) :
    discardInput s n = s.drop n := by
  unfold discardInput discardChunks
  by_cases h : n % discardMaxSize > 0
  · simp only [h, if_pos, List.foldl_append, foldl_drop_replicate, List.foldl_cons,
      List.foldl_nil, List.drop_drop]
    rw [Nat.mul_comm (n / discardMaxSize) discardMaxSize, Nat.div_add_mod]
  · have h0 : n % discardMaxSize = 0 := by omega
    simp [h0, List.foldl_append, foldl_drop_replicate]
    rw [Nat.div_mul_cancel (Nat.dvd_of_mod_eq_zero h0)]

/-! ## Fixed-width integer elements

Modelled from the spec: `readElement(s)` / `writeElement(s)` of the
primitive codec, specialised to the element types the version message
uses.  Signed integers travel in two's complement. -/

/-- Two's-complement image of an integer in `w` bytes. -/
def intToTwos (w : Nat) (i : Int) : Nat := (i % ((2 : Int) ^ (8 * w))).toNat

/-- Signed reading of a `w`-byte two's-complement value. -/
def twosToInt (w n : Nat) : Int :=
  if n < 2 ^ (8 * w - 1) then (n : Int) else (n : Int) - (2 : Int) ^ (8 * w)

/-- Errors a message payload codec can report. -/
inductive MsgError where
  /-- A structural read failure: the stream ended before the element. -/
  | shortRead : MsgError
  /-- `messageError(f, "user agent too long ...")` with the length seen;
  `onDecode = false` for `MsgVersion.BtcEncode`, `true` for
  `MsgVersion.BtcDecode`. -/
  | userAgentTooLong (onDecode : Bool) (len : Nat) : MsgError
deriving DecidableEq, Repr

def writeUint32 (n : Nat) : List Nat := natToBytesLE 4 n

def writeUint64 (n : Nat) : List Nat := natToBytesLE 8 n

def writeInt32 (i : Int) : List Nat := natToBytesLE 4 (intToTwos 4 i)

def writeInt64 (i : Int) : List Nat := natToBytesLE 8 (intToTwos 8 i)

/-- Big-endian 2-byte encoding (used for the port of an address record). -/
def writeUint16BE (n : Nat) : List Nat := [n / 256 % 256, n % 256]

def readUint32 (s : List Nat) : Except MsgError (Nat × List Nat) :=
  match readFull 4 s with
  | (some b, r) => .ok (bytesToNatLE b, r)
  | (none, _) => .error .shortRead

def readUint64 (s : List Nat) : Except MsgError (Nat × List Nat) :=
  match readFull 8 s with
  | (some b, r) => .ok (bytesToNatLE b, r)
  | (none, _) => .error .shortRead

def readInt32 (s : List Nat) : Except MsgError (Int × List Nat) :=
  match readFull 4 s with
  | (some b, r) => .ok (twosToInt 4 (bytesToNatLE b), r)
  | (none, _) => .error .shortRead

def readInt64 (s : List Nat) : Except MsgError (Int × List Nat) :=
  match readFull 8 s with
  | (some b, r) => .ok (twosToInt 8 (bytesToNatLE b), r)
  | (none, _) => .error .shortRead

def readUint16BE (s : List Nat) : Except MsgError (Nat × List Nat) :=
  match readFull 2 s with
  | (some b, r) => .ok (b.headI * 256 + (b.drop 1).headI, r)
  | (none, _) => .error .shortRead

/-! ## Variable-length integers and strings

Modelled from the spec: the primitive codec's variable-length integer
(1, 3, 5 or 9 bytes, discriminated by the first byte) and
length-prefixed string. -/

/-- `writeVarInt`: shortest-form discriminated encoding of `n`. -/
def writeVarInt (n : Nat) : List Nat :=
  if n < 0xfd then [n]
  else if n ≤ 0xffff then 0xfd :: natToBytesLE 2 n
  else if n ≤ 0xffffffff then 0xfe :: natToBytesLE 4 n
  else 0xff :: natToBytesLE 8 n

/-- `readVarInt`: reads the discriminator byte, then the tail it announces. -/
def readVarInt (s : List Nat) : Except MsgError (Nat × List Nat) :=
  match readFull 1 s with
  | (none, _) => .error .shortRead
  | (some d, r) =>
    if d.headI = 0xfd then
      match readFull 2 r with
      | (some b, r2) => .ok (bytesToNatLE b, r2)
      | (none, _) => .error .shortRead
    else if d.headI = 0xfe then
      match readFull 4 r with
      | (some b, r2) => .ok (bytesToNatLE b, r2)
      | (none, _) => .error .shortRead
    else if d.headI = 0xff then
      match readFull 8 r with
      | (some b, r2) => .ok (bytesToNatLE b, r2)
      | (none, _) => .error .shortRead
    else .ok (d.headI, r)

/-- The maximum wire size of a variable-length integer (discriminator
plus eight payload bytes).  Modelled from the spec: "the maximum
possible length-prefix overhead". -/
def maxVarIntPayload : Nat := 9

/-- `writeVarString`: variable-length integer byte count, then the raw
bytes of the string. -/
def writeVarString (str : List Nat) : List Nat := writeVarInt str.length ++ str

/-- `readVarString`: reads the announced byte count, then that many
bytes. -/
def readVarString (s : List Nat) : Except MsgError (List Nat × List Nat) :=
  match readVarInt s with
  | .error e => .error e
  | .ok (n, r) =>
    match readFull n r with
    | (some b, r2) => .ok (b, r2)
    | (none, _) => .error .shortRead

/-! ## Network address records

Modelled from the spec: the network-address structure is an external
collaborator; as used by the version message (no timestamp field on the
wire) it carries a service bitset, a 16-byte address and a port. -/

structure NetAddress where
  services : Nat
  ip : List Nat
  port : Nat
deriving DecidableEq, Repr

/-- `writeNetAddress` with the timestamp flag false, as the version
message codec always calls it. -/
def writeNetAddress (na : NetAddress) : List Nat :=
  writeUint64 na.services ++ na.ip ++ writeUint16BE na.port

def readNetAddress (s : List Nat) : Except MsgError (NetAddress × List Nat) :=
  match readUint64 s with
  | .error e => .error e
  | .ok (sv, r1) =>
    match readFull 16 r1 with
    | (none, _) => .error .shortRead
    | (some ip, r2) =>
      match readUint16BE r2 with
      | .error e => .error e
      | .ok (p, r3) => .ok (⟨sv, ip, p⟩, r3)

/-- The protocol version from which address records gain a timestamp
field.  Modelled from the spec: the address-record size is
"per-version". -/
def netAddressTimeVersion : Nat := 31402

/-- Largest wire size of an address record at protocol version `pver`:
8 service bytes + 16 address bytes + 2 port bytes, plus 4 timestamp
bytes for new-enough versions.  Modelled from the spec. -/
def maxNetAddressPayload (pver : Nat) : Nat :=
  if pver < netAddressTimeVersion then 26 else 30

/-! ## The version message (`msgversion.go`) -/

/-- MaxUserAgentLen is the maximum allowed length for the user agent
field in a version message. -/
def MaxUserAgentLen : Nat := 2000

/-- The in-memory instant of `time.Time`, split into whole seconds since
the epoch (`Unix()`) and the sub-second component that the wire cannot
carry. -/
structure Timestamp where
  sec : Int
  nsec : Nat
deriving DecidableEq, Repr

/-- MsgVersion represents a bitcoin version message.  The user agent is
kept as its byte sequence, so `userAgent.length` is the `len` the source
checks. -/
structure MsgVersion where
  protocolVersion : Int
  services : Nat
  timestamp : Timestamp
  addrYou : NetAddress
  addrMe : NetAddress
  nonce : Nat
  userAgent : List Nat
  lastBlock : Int
deriving DecidableEq, Repr

/-- HasService returns whether the specified service is supported by the
peer that generated the message: `msg.Services & service == service`. -/
def MsgVersion.hasService (msg : MsgVersion) (service : Nat) : Bool :=
  msg.services &&& service == service

/-- AddService adds service as a supported service:
`msg.Services |= service`. -/
def MsgVersion.addService (msg : MsgVersion) (service : Nat) : MsgVersion :=
  { msg with services := msg.services ||| service }

/-- `MsgVersion.BtcEncode`: rejects an oversized user agent before
anything is written, then emits protocol version, services, whole-second
timestamp, the two address records, nonce, length-prefixed user agent
and last block, in that order.  The returned list is everything written
to the sink. -/
def msgVersionBtcEncode (msg : MsgVersion) : Except MsgError (List Nat) :=
  if msg.userAgent.length > MaxUserAgentLen then
    .error (.userAgentTooLong false msg.userAgent.length)
  else
    .ok (writeInt32 msg.protocolVersion ++ writeUint64 msg.services ++
      writeInt64 msg.timestamp.sec ++ writeNetAddress msg.addrYou ++
      writeNetAddress msg.addrMe ++ writeUint64 msg.nonce ++
      writeVarString msg.userAgent ++ writeInt32 msg.lastBlock)

/-- `MsgVersion.BtcDecode`: mirrors the encode order; `time.Unix(sec, 0)`
reconstructs the timestamp with a zero sub-second component; a decoded
user agent longer than `MaxUserAgentLen` is rejected. -/
def msgVersionBtcDecode (s : List Nat) : Except MsgError (MsgVersion × List Nat) :=
  match readInt32 s with
  | .error e => .error e
  | .ok (pv, r1) =>
    match readUint64 r1 with
    | .error e => .error e
    | .ok (sv, r2) =>
      match readInt64 r2 with
      | .error e => .error e
      | .ok (sec, r3) =>
        match readNetAddress r3 with
        | .error e => .error e
        | .ok (ay, r4) =>
          match readNetAddress r4 with
          | .error e => .error e
          | .ok (am, r5) =>
            match readUint64 r5 with
            | .error e => .error e
            | .ok (nonce, r6) =>
              match readVarString r6 with
              | .error e => .error e
              | .ok (ua, r7) =>
                if ua.length > MaxUserAgentLen then
                  .error (.userAgentTooLong true ua.length)
                else
                  match readInt32 r7 with
                  | .error e => .error e
                  | .ok (lb, r8) =>
                    .ok (⟨pv, sv, ⟨sec, 0⟩, ay, am, nonce, ua, lb⟩, r8)

/-- `MsgVersion.MaxPayloadLength`: protocol version 4 bytes + services
8 bytes + timestamp 8 bytes + remote and local net addresses + nonce
8 bytes + length of user agent + max allowed user agent length + last
block 4 bytes. -/
def msgVersionMaxPayloadLength (pver : Nat) : Nat :=
  32 + (maxNetAddressPayload pver * 2) + maxVarIntPayload + MaxUserAgentLen

/-! ## Message framing (`message.go`) -/

/-- commandSize is the fixed size of all commands in the common bitcoin
message header.  Shorter commands must be zero padded. -/
def commandSize : Nat := 12

/-- maxMessagePayload is the maximum bytes a message can be regardless
of other individual limits imposed by messages themselves (32 MB). -/
def maxMessagePayload : Nat := 1024 * 1024 * 32

/-- Command byte sequences used in bitcoin message headers.  Go keeps
them as string literals; here they are their ASCII bytes. -/
def cmdVersion : List Nat := [118, 101, 114, 115, 105, 111, 110]

def cmdVerAck : List Nat := [118, 101, 114, 97, 99, 107]

def cmdGetAddr : List Nat := [103, 101, 116, 97, 100, 100, 114]

def cmdAddr : List Nat := [97, 100, 100, 114]

def cmdGetBlocks : List Nat := [103, 101, 116, 98, 108, 111, 99, 107, 115]

def cmdInv : List Nat := [105, 110, 118]

def cmdGetData : List Nat := [103, 101, 116, 100, 97, 116, 97]

def cmdNotFound : List Nat := [110, 111, 116, 102, 111, 117, 110, 100]

def cmdBlock : List Nat := [98, 108, 111, 99, 107]

def cmdTx : List Nat := [116, 120]

def cmdGetHeaders : List Nat := [103, 101, 116, 104, 101, 97, 100, 101, 114, 115]

def cmdHeaders : List Nat := [104, 101, 97, 100, 101, 114, 115]

def cmdPing : List Nat := [112, 105, 110, 103]

def cmdPong : List Nat := [112, 111, 110, 103]

def cmdAlert : List Nat := [97, 108, 101, 114, 116]

def cmdMemPool : List Nat := [109, 101, 109, 112, 111, 111, 108]

/-- The closed set of concrete message variants the package registers.
The version message carries its decoded fields; the remaining variants
are out-of-scope payload types (mechanical repetitions of the same
pattern, per the spec) and carry none of their fields here. -/
inductive Message where
  | version (m : MsgVersion)
  | verack
  | getaddr
  | addr
  | getblocks
  | inv
  | getdata
  | notfound
  | block
  | tx
  | getheaders
  | headers
  | ping
  | pong
  | alert
  | mempool
deriving DecidableEq, Repr

/-- `Command()` of each concrete variant. -/
def Message.command : Message → List Nat
  | .version _ => cmdVersion
  | .verack => cmdVerAck
  | .getaddr => cmdGetAddr
  | .addr => cmdAddr
  | .getblocks => cmdGetBlocks
  | .inv => cmdInv
  | .getdata => cmdGetData
  | .notfound => cmdNotFound
  | .block => cmdBlock
  | .tx => cmdTx
  | .getheaders => cmdGetHeaders
  | .headers => cmdHeaders
  | .ping => cmdPing
  | .pong => cmdPong
  | .alert => cmdAlert
  | .mempool => cmdMemPool

/-- `MaxPayloadLength(pver)` of each variant.  The version message's is
from the source; the other variants' maxima are out of scope — modelled
from the spec as fixed per-type ceilings ("report its own maximum
allowed payload size for a given protocol version"). -/
def Message.maxPayloadLength : Message → Nat → Nat
  | .version _, pver => msgVersionMaxPayloadLength pver
  | .verack, _ => 0
  | .getaddr, _ => 0
  | .mempool, _ => 0
  | .ping, _ => 8
  | .pong, _ => 8
  | _, _ => maxMessagePayload

/-- `BtcEncode` of each variant.  Only the version message's codec is in
the source; the other variants are modelled from the spec as encoding
no bytes (their payloads are out of scope). -/
def Message.btcEncode : Message → Nat → Except MsgError (List Nat)
  | .version m, _ => msgVersionBtcEncode m
  | _, _ => .ok []

/-- `BtcDecode` of each variant, reading from the payload buffer and
returning the repopulated receiver.  Only the version message's codec is
in the source; the other variants are modelled from the spec as
accepting their (out-of-scope) payload unchanged. -/
def Message.btcDecode : Message → List Nat → Except MsgError Message
  | .version _, payload =>
    match msgVersionBtcDecode payload with
    | .error e => .error e
    | .ok (m, _) => .ok (.version m)
  | m, _ => .ok m

/-- The zero value `&MsgVersion{}` the registry constructs. -/
def emptyMsgVersion : MsgVersion :=
  ⟨0, 0, ⟨0, 0⟩, ⟨0, [], 0⟩, ⟨0, [], 0⟩, 0, [], 0⟩

/-- makeEmptyMessage creates a message of the appropriate concrete type
based on the command; an unhandled command yields no message (the source
returns `fmt.Errorf("unhandled command [%s]", command)`). -/
def makeEmptyMessage (command : List Nat) : Option Message :=
  if command = cmdVersion then some (.version emptyMsgVersion)
  else if command = cmdVerAck then some .verack
  else if command = cmdGetAddr then some .getaddr
  else if command = cmdAddr then some .addr
  else if command = cmdGetBlocks then some .getblocks
  else if command = cmdBlock then some .block
  else if command = cmdInv then some .inv
  else if command = cmdGetData then some .getdata
  else if command = cmdNotFound then some .notfound
  else if command = cmdTx then some .tx
  else if command = cmdPing then some .ping
  else if command = cmdPong then some .pong
  else if command = cmdGetHeaders then some .getheaders
  else if command = cmdHeaders then some .headers
  else if command = cmdAlert then some .alert
  else if command = cmdMemPool then some .mempool
  else none

/-- One byte of a multi-byte UTF-8 sequence after the first. -/
def isCont (b : Nat) : Bool := 0x80 ≤ b && b < 0xC0

/-- `utf8.ValidString` over the bytes of the command.  Modelled from the
spec: the well-formed-text check is a standard-library collaborator;
this is the usual UTF-8 acceptor (no stray continuation bytes, no
overlong forms, no surrogates, no code point above U+10FFFF). -/
def utf8Valid : List Nat → Bool
  | [] => true
  | b :: rest =>
    if b < 0x80 then utf8Valid rest
    else if b < 0xC2 then false
    else if b < 0xE0 then
      match rest with
      | c1 :: r => isCont c1 && utf8Valid r
      | [] => false
    else if b < 0xF0 then
      match rest with
      | c1 :: c2 :: r =>
        isCont c1 && isCont c2 && !(b == 0xE0 && c1 < 0xA0) &&
          !(b == 0xED && 0xA0 ≤ c1) && utf8Valid r
      | _ => false
    else if b < 0xF5 then
      match rest with
      | c1 :: c2 :: c3 :: r =>
        isCont c1 && isCont c2 && isCont c3 && !(b == 0xF0 && c1 < 0x90) &&
          !(b == 0xF4 && 0x90 ≤ c1) && utf8Valid r
      | _ => false
    else false

/-- Modelled from the spec: the cryptographic double-hash used for
checksums (`DoubleSha256`) is an external collaborator; it is modelled
as a 32-byte digest whose leading four bytes are the little-endian byte
sum of the input modulo `2^32` — what the framing layer relies on is
only that the checksum is a deterministic function of the exact payload
bytes whose leading four bytes react to payload changes. -/
def doubleSha256 (b : List Nat) : List Nat :=
  natToBytesLE 4 (b.foldl (fun acc x => acc + x) 0 % 2 ^ 32) ++ List.replicate 28 0

/-- `bytes.TrimRight(command, string(0))`: strip trailing zero bytes. -/
def trimTrailingZeros (l : List Nat) : List Nat :=
  (l.reverse.dropWhile (fun b => b == 0)).reverse

/-- messageHeader: the fixed envelope before every payload. -/
structure MessageHeader where
  magic : Nat
  command : List Nat
  length : Nat
  checksum : List Nat
deriving DecidableEq, Repr

/-- readMessageHeader reads the 4-byte magic, 12-byte zero-padded
command, 4-byte length and 4-byte checksum; trailing zeros are stripped
from the command.  The second component is the remaining stream (a short
header consumes everything available, per `io.ReadFull`). -/
def readMessageHeader (s : List Nat) : Option MessageHeader × List Nat :=
  match readFull 24 s with
  | (none, rest) => (none, rest)
  | (some hb, rest) =>
    (some ⟨bytesToNatLE (hb.take 4), trimTrailingZeros ((hb.drop 4).take 12),
      bytesToNatLE ((hb.drop 16).take 4), (hb.drop 20).take 4⟩, rest)

/-- The distinct rejection sites of `ReadMessage`, one constructor per
`return` with an error in the source (the Go strings are formatting). -/
inductive ReadError where
  /-- The header read failed structurally. -/
  | headerShort : ReadError
  /-- "message payload is too large - header indicates ... but max
  message payload is ...": the global 32 MB ceiling. -/
  | payloadTooLargeGlobal : ReadError
  /-- "message from other network". -/
  | wrongNetwork : ReadError
  /-- "invalid command": the command bytes are not valid text. -/
  | invalidCommand : ReadError
  /-- The registry reported an unhandled command. -/
  | unknownCommand : ReadError
  /-- "payload exceeds max length ... for messages of type ...". -/
  | payloadTooLargeForType : ReadError
  /-- The payload read failed structurally. -/
  | payloadShort : ReadError
  /-- "payload checksum failed". -/
  | checksumMismatch : ReadError
  /-- The message's own `BtcDecode` failed. -/
  | decodeFailed (e : MsgError) : ReadError
deriving DecidableEq, Repr

/-- ReadMessage reads, validates, and parses the next bitcoin Message
from the stream.  Returns the result of the call together with the
stream left unconsumed, so consumption and draining are observable. -/
def ReadMessage (pver btcnet : Nat) (s : List Nat) :
    Except ReadError (Message × List Nat) × List Nat :=
  match readMessageHeader s with
  | (none, rest) => (.error .headerShort, rest)
  | (some hdr, rest) =>
    if hdr.length > maxMessagePayload then
      (.error .payloadTooLargeGlobal, rest)
    else if hdr.magic ≠ btcnet then
      (.error .wrongNetwork, discardInput rest hdr.length)
    else if ¬ utf8Valid hdr.command then
      (.error .invalidCommand, discardInput rest hdr.length)
    else
      match makeEmptyMessage hdr.command with
      | none => (.error .unknownCommand, discardInput rest hdr.length)
      | some msg =>
        if hdr.length > msg.maxPayloadLength pver then
          (.error .payloadTooLargeForType, discardInput rest hdr.length)
        else
          match readFull hdr.length rest with
          | (none, rest2) => (.error .payloadShort, rest2)
          | (some payload, rest2) =>
            if (doubleSha256 payload).take 4 ≠ hdr.checksum then
              (.error .checksumMismatch, rest2)
            else
              match msg.btcDecode payload with
              | .error e => (.error (.decodeFailed e), rest2)
              | .ok m => (.ok (m, payload), rest2)

/-- The rejection sites of `WriteMessage`, in source order. -/
inductive WriteError where
  /-- "command ... is too long". -/
  | commandTooLong : WriteError
  /-- The message's own `BtcEncode` failed. -/
  | encodeFailed (e : MsgError) : WriteError
  /-- The global 32 MB ceiling. -/
  | payloadTooLargeGlobal : WriteError
  /-- The message type's own `MaxPayloadLength`. -/
  | payloadTooLargeForType : WriteError
deriving DecidableEq, Repr

/-- The writer-side view of the Go `Message` interface: `WriteMessage`
only calls `Command`, `BtcEncode` and `MaxPayloadLength`, and accepts
any implementation of those three. -/
structure MessageW where
  command : List Nat
  btcEncode : Nat → Except MsgError (List Nat)
  maxPayloadLength : Nat → Nat

/-- Every registered concrete variant seen through the interface. -/
def Message.toW (m : Message) : MessageW :=
  ⟨m.command, m.btcEncode, m.maxPayloadLength⟩

/-- WriteMessage writes a bitcoin Message including the necessary header
information; on success the returned list is the byte sequence written
to the sink (header then payload), and on any failed check nothing has
been written (the payload is encoded into an in-memory buffer first). -/
def WriteMessage (msg : MessageW) (pver btcnet : Nat) :
    Except WriteError (List Nat) :=
  if msg.command.length > commandSize then .error .commandTooLong
  else
    match msg.btcEncode pver with
    | .error e => .error (.encodeFailed e)
    | .ok payload =>
      if payload.length > maxMessagePayload then .error .payloadTooLargeGlobal
      else if payload.length > msg.maxPayloadLength pver then
        .error .payloadTooLargeForType
      else
        .ok (writeUint32 btcnet ++
          (msg.command ++ List.replicate (commandSize - msg.command.length) 0) ++
          writeUint32 payload.length ++ (doubleSha256 payload).take 4 ++ payload)

/-! ## Concrete inputs for evaluating the theorems -/

/-- An address record with a zero address and the default port. -/
def exNetAddress : NetAddress := ⟨0, List.replicate 16 0, 8333⟩

/-- The spec's concrete handshake scenario: protocol version 70001, zero
services, nonce `0x1234567890abcdef`, user agent "/test:0.0.1/" (as
bytes), last block 123456; the timestamp carries a nonzero sub-second
component so truncation is observable. -/
def exMsgVersion : MsgVersion :=
  ⟨70001, 0, ⟨1414012424, 123⟩, exNetAddress, exNetAddress, 0x1234567890abcdef,
    [47, 116, 101, 115, 116, 58, 48, 46, 48, 46, 49, 47], 123456⟩

/-- A user agent one byte over `MaxUserAgentLen`. -/
def exLongUserAgent : List Nat := List.replicate 2001 97

/-- The scenario message with the oversized user agent. -/
def exBadMsgVersion : MsgVersion := { exMsgVersion with userAgent := exLongUserAgent }

/-- A well-formed header on network 1 for a "ping" with a one-byte
payload whose checksum was computed over the byte `7`. -/
def exPingHeader : List Nat :=
  [1, 0, 0, 0] ++ (cmdPing ++ List.replicate 8 0) ++ [1, 0, 0, 0] ++ [7, 0, 0, 0]

/-- A header on network 1 declaring the maximum `u32` payload length. -/
def exOversizeHeader : List Nat :=
  [1, 0, 0, 0] ++ (cmdPing ++ List.replicate 8 0) ++ [255, 255, 255, 255] ++ [7, 0, 0, 0]

/-- A header on network 1 naming the unregistered command "bogus", with
a declared length of 1. -/
def exBogusHeader : List Nat :=
  [1, 0, 0, 0] ++ ([98, 111, 103, 117, 115] ++ List.replicate 7 0) ++ [1, 0, 0, 0] ++ [7, 0, 0, 0]

/-! ## C9: the stream discard utility -/

/-- C9: for every `n`, `discardInput` requests exactly `n` bytes,
issuing `n / 10240` full-chunk reads plus one read of `n % 10240` bytes
when the remainder is nonzero — `⌈n / 10240⌉` reads in all, each of at
most 10240 bytes (the buffer never grows with `n`), and the stream loses
exactly the first `n` available bytes.  The return type records no
error: read failures during the discard are invisible to the caller. -/
theorem discardInput_exact (s : List Nat) (n : Nat) :
    discardInput s n = s.drop n ∧
    discardChunks n = List.replicate (n / 10240) 10240 ++
      (if n % 10240 > 0 then [n % 10240] else []) ∧
    (discardChunks n).length = n / 10240 + (if n % 10240 > 0 then 1 else 0) ∧
    (discardChunks n).sum = n ∧
    ∀ c ∈ discardChunks n, c ≤ 10240 := by
  have hmax : discardMaxSize = 10240 := rfl
  refine ⟨discardInput_drop s n, rfl, ?_, ?_, ?_⟩
  · unfold discardChunks
    rw [hmax]
    by_cases h : 0 < n % 10240 <;> simp [h]
  · unfold discardChunks
    rw [hmax]
    by_cases h : 0 < n % 10240 <;>
      simp [h, List.sum_replicate, smul_eq_mul] <;> omega
  · intro c hc
    unfold discardChunks at hc
    rcases List.mem_append.mp hc with h | h
    · rw [List.eq_of_mem_replicate h]; rfl
    · by_cases hr : n % discardMaxSize > 0
      · rw [if_pos hr] at h
        rcases List.mem_singleton.mp h with rfl
        have := Nat.mod_lt n (show 0 < discardMaxSize by decide)
        omega
      · rw [if_neg hr] at h
        cases h

/-- Evaluating C9 at a concrete request: two reads for 10241 bytes, the
second of one byte, each within the chunk bound. -/
theorem discardInput_exact_witness :
    discardInput [1, 2, 3] 10241 = [] ∧ (10240 : Nat) ≤ 10240 :=
  ⟨((discardInput_exact [1, 2, 3] 10241).1).trans (by decide),
    (discardInput_exact [1, 2, 3] 10241).2.2.2.2 10240 (by decide)⟩

/-! ## C10: service flag operations of the version message -/

/-- C10: after `AddService s`, `HasService s` holds; `HasService s`
holds exactly when every bit of `s` is set in `Services`; and
`AddService` only ORs `s` into `Services`, leaving every other field
unchanged. -/
theorem hasService_addService_spec (m : MsgVersion) (s : Nat) :
    (m.addService s).hasService s = true ∧
    (m.hasService s = true ↔ ∀ i, s.testBit i = true → m.services.testBit i = true) ∧
    (m.addService s).services = m.services ||| s ∧
    (m.addService s).protocolVersion = m.protocolVersion ∧
    (m.addService s).timestamp = m.timestamp ∧
    (m.addService s).addrYou = m.addrYou ∧
    (m.addService s).addrMe = m.addrMe ∧
    (m.addService s).nonce = m.nonce ∧
    (m.addService s).userAgent = m.userAgent ∧
    (m.addService s).lastBlock = m.lastBlock := by
  refine ⟨?_, ⟨?_, ?_⟩, rfl, rfl, rfl, rfl, rfl, rfl, rfl, rfl⟩
  · unfold MsgVersion.addService MsgVersion.hasService
    rw [beq_iff_eq]
    apply Nat.eq_of_testBit_eq
    intro i
    simp only [Nat.testBit_and, Nat.testBit_or]
    cases hs : s.testBit i <;> simp [hs]
  · intro h i hs
    unfold MsgVersion.hasService at h
    rw [beq_iff_eq] at h
    have hb := congrArg (fun x => x.testBit i) h
    simp only [Nat.testBit_and, hs, Bool.and_true] at hb
    exact hb
  · intro h
    unfold MsgVersion.hasService
    rw [beq_iff_eq]
    apply Nat.eq_of_testBit_eq
    intro i
    simp only [Nat.testBit_and]
    cases hs : s.testBit i
    · simp
    · simp [h i hs]

/-- Evaluating C10 on services `7` and flag `5`: the bit containment
transfers bit 0. -/
theorem hasService_addService_spec_witness :
    (7 : Nat).testBit 0 = true :=
  ((hasService_addService_spec ⟨0, 7, ⟨0, 0⟩, exNetAddress, exNetAddress, 0, [], 0⟩
    5).2.1.mp (by decide)) 0 (by decide)

/-! ## C7: the version message's worst-case payload size -/

/-! ## C1, C2, C8: the frame reader's rejection branches -/

/-- A successfully parsed header consumed exactly its 24 bytes. -/
theorem readMessageHeader_rest {s : List Nat} {hdr : MessageHeader} {rest : List Nat}
    (hh : readMessageHeader s = (some hdr, rest)) : rest = s.drop 24 := by
  unfold readMessageHeader readFull at hh
  by_cases h : 24 ≤ s.length
  · simp only [h, if_pos] at hh
    exact ((Prod.mk.injEq _ _ _ _).mp hh).2.symm
  · simp [h] at hh

/-- C1: a header declaring a length over the 32 MiB global maximum is
rejected immediately; the stream after the call is exactly the input
minus the 24 header bytes, so no payload byte was read, drained or
buffered. -/
theorem readMessage_global_ceiling (pver btcnet : Nat) (s : List Nat)
    (hdr : MessageHeader) (rest : List Nat)
    (hh : readMessageHeader s = (some hdr, rest))
    (hl : hdr.length > maxMessagePayload) :
    ReadMessage pver btcnet s = (.error .payloadTooLargeGlobal, s.drop 24) := by
  have hr := readMessageHeader_rest hh
  subst hr
  simp only [ReadMessage, hh]
  rw [if_pos hl]

/-- Evaluating C1: a declared length of `0xffffffff` is rejected with
the byte after the header untouched. -/
theorem readMessage_global_ceiling_witness :
    ReadMessage 0 1 (exOversizeHeader ++ [5]) = (.error .payloadTooLargeGlobal, [5]) :=
  (readMessage_global_ceiling 0 1 (exOversizeHeader ++ [5])
    ⟨1, cmdPing, 4294967295, [7, 0, 0, 0]⟩ [5] (by decide) (by decide)).trans (by decide)

/-- C2: when the header passes the global length check but the message
is rejected for wrong network, malformed command text, an unrecognized
command, or a length over the type's own maximum, `ReadMessage` leaves
the stream exactly as `discardInput` of the declared length leaves it —
the discard is invoked with `hdr.length` — and that drained length is at
most the 32 MiB global maximum, because the global check ran first. -/
theorem readMessage_bounded_drain (pver btcnet : Nat) (s : List Nat)
    (hdr : MessageHeader) (rest : List Nat)
    (hh : readMessageHeader s = (some hdr, rest))
    (hlen : hdr.length ≤ maxMessagePayload)
    (hrej : hdr.magic ≠ btcnet ∨ utf8Valid hdr.command = false ∨
      makeEmptyMessage hdr.command = none ∨
      ∃ msg, makeEmptyMessage hdr.command = some msg ∧
        msg.maxPayloadLength pver < hdr.length) :
    (∃ e, ReadMessage pver btcnet s = (.error e, discardInput rest hdr.length)) ∧
    hdr.length ≤ maxMessagePayload := by
  refine ⟨?_, hlen⟩
  have hnl : ¬ hdr.length > maxMessagePayload := by omega
  simp only [ReadMessage, hh]
  rw [if_neg hnl]
  by_cases h1 : hdr.magic = btcnet
  · rw [if_neg (by simp [h1])]
    by_cases h2 : utf8Valid hdr.command = true
    · rw [if_neg (by simp [h2])]
      cases hmk : makeEmptyMessage hdr.command with
      | none =>
        exact ⟨.unknownCommand, by simp only [hmk]⟩
      | some msg =>
        by_cases h4 : hdr.length > msg.maxPayloadLength pver
        · exact ⟨.payloadTooLargeForType, by simp only [hmk, if_pos h4]⟩
        · exfalso
          rcases hrej with h | h | h | ⟨m2, hm2, hgt⟩
          · exact h h1
          · rw [h2] at h; cases h
          · rw [hmk] at h; cases h
          · rw [hmk] at hm2
            cases hm2
            omega
    · exact ⟨.invalidCommand, by rw [if_pos (by simp [h2])]⟩
  · exact ⟨.wrongNetwork, by rw [if_pos h1]⟩

/-- Evaluating C2: a ping frame for network 1 read while expecting
network 2 is rejected with exactly its declared single payload byte
drained. -/
theorem readMessage_bounded_drain_witness :
    (∃ e, ReadMessage 0 2 (exPingHeader ++ [5, 9, 9]) =
      (.error e, discardInput [5, 9, 9] 1)) ∧ (1 : Nat) ≤ maxMessagePayload :=
  readMessage_bounded_drain 0 2 (exPingHeader ++ [5, 9, 9])
    ⟨1, cmdPing, 1, [7, 0, 0, 0]⟩ [5, 9, 9] (by decide) (by decide)
    (Or.inl (by decide))

/-- C8: the registry maps exactly the sixteen known command strings to
freshly constructed empty messages of the matching variants, yields no
message for every other command, and `ReadMessage` converts that failure
into a rejection after draining the declared length. -/
theorem makeEmptyMessage_spec :
    (makeEmptyMessage cmdVersion = some (.version emptyMsgVersion) ∧
      makeEmptyMessage cmdVerAck = some .verack ∧
      makeEmptyMessage cmdGetAddr = some .getaddr ∧
      makeEmptyMessage cmdAddr = some .addr ∧
      makeEmptyMessage cmdGetBlocks = some .getblocks ∧
      makeEmptyMessage cmdInv = some .inv ∧
      makeEmptyMessage cmdGetData = some .getdata ∧
      makeEmptyMessage cmdNotFound = some .notfound ∧
      makeEmptyMessage cmdBlock = some .block ∧
      makeEmptyMessage cmdTx = some .tx ∧
      makeEmptyMessage cmdGetHeaders = some .getheaders ∧
      makeEmptyMessage cmdHeaders = some .headers ∧
      makeEmptyMessage cmdPing = some .ping ∧
      makeEmptyMessage cmdPong = some .pong ∧
      makeEmptyMessage cmdAlert = some .alert ∧
      makeEmptyMessage cmdMemPool = some .mempool) ∧
    (∀ c, c ∉ [cmdVersion, cmdVerAck, cmdGetAddr, cmdAddr, cmdGetBlocks, cmdInv,
        cmdGetData, cmdNotFound, cmdBlock, cmdTx, cmdGetHeaders, cmdHeaders,
        cmdPing, cmdPong, cmdAlert, cmdMemPool] →
      makeEmptyMessage c = none) ∧
    (∀ pver btcnet s hdr rest, readMessageHeader s = (some hdr, rest) →
      hdr.length ≤ maxMessagePayload → hdr.magic = btcnet →
      utf8Valid hdr.command = true → makeEmptyMessage hdr.command = none →
      ReadMessage pver btcnet s = (.error .unknownCommand, discardInput rest hdr.length)) := by
  refine ⟨by decide, ?_, ?_⟩
  · intro c hc
    simp only [List.mem_cons, List.not_mem_nil, or_false, not_or] at hc
    obtain ⟨n1, n2, n3, n4, n5, n6, n7, n8, n9, n10, n11, n12, n13, n14, n15, n16⟩ := hc
    simp [makeEmptyMessage, n1, n2, n3, n4, n5, n6, n7, n8, n9, n10, n11, n12,
      n13, n14, n15, n16]
  · intro pver btcnet s hdr rest hh hlen hmagic hutf hmk
    simp only [ReadMessage, hh]
    rw [if_neg (by omega), if_neg (by simp [hmagic]), if_neg (by simp [hutf])]
    simp only [hmk]

/-- Evaluating C8: the command "bogus" maps to no message, and a frame
naming it is rejected with its declared single byte drained. -/
theorem makeEmptyMessage_spec_witness :
    makeEmptyMessage [98, 111, 103, 117, 115] = none ∧
    ReadMessage 0 1 (exBogusHeader ++ [5]) =
      (.error .unknownCommand, discardInput [5] 1) :=
  ⟨makeEmptyMessage_spec.2.1 [98, 111, 103, 117, 115] (by decide),
    makeEmptyMessage_spec.2.2 0 1 (exBogusHeader ++ [5])
      ⟨1, [98, 111, 103, 117, 115], 1, [7, 0, 0, 0]⟩ [5] (by decide) (by decide)
      (by decide) (by decide) (by decide)⟩

/-! ## C3: checksum verification -/

theorem foldl_add_shift (l : List Nat) (a : Nat) :
    l.foldl (fun acc x => acc + x) a = a + l.foldl (fun acc x => acc + x) 0 := by
  induction l generalizing a with
  | nil => simp
  | cons b t ih =>
    simp only [List.foldl_cons]
    rw [ih (a + b), ih (0 + b)]
    omega

theorem foldl_add_append (l r : List Nat) (b : Nat) :
    (l ++ b :: r).foldl (fun acc x => acc + x) 0 =
      l.foldl (fun acc x => acc + x) 0 + b + r.foldl (fun acc x => acc + x) 0 := by
  rw [List.foldl_append, List.foldl_cons, foldl_add_shift]

/-- Taking exactly the leading segment of an append. -/
theorem take_append_exact {α : Type} (x y : List α) (n : Nat) (h : x.length = n) :
    (x ++ y).take n = x := by
  subst h; exact List.take_left x y

/-- The four checksum bytes are the leading bytes of the digest. -/
theorem doubleSha256_take4 (p : List Nat) :
    (doubleSha256 p).take 4 =
      natToBytesLE 4 (p.foldl (fun acc x => acc + x) 0 % 2 ^ 32) := by
  unfold doubleSha256
  exact take_append_exact _ _ 4 (natToBytesLE_length 4 _)

/-- Flipping a single byte of the payload changes the four checksum
bytes: the two digests disagree on their leading four bytes. -/
theorem doubleSha256_take4_flip (l r : List Nat) (b c : Nat)
    (hb : b < 256) (hc : c < 256) (hne : b ≠ c) :
    (doubleSha256 (l ++ b :: r)).take 4 ≠ (doubleSha256 (l ++ c :: r)).take 4 := by
  rw [doubleSha256_take4, doubleSha256_take4, foldl_add_append, foldl_add_append]
  intro heq
  have h1 := congrArg bytesToNatLE heq
  rw [bytesToNatLE_natToBytesLE, bytesToNatLE_natToBytesLE] at h1
  have h32 : (8 : Nat) * 4 = 32 := by norm_num
  rw [h32, Nat.mod_mod_of_dvd _ dvd_rfl, Nat.mod_mod_of_dvd _ dvd_rfl] at h1
  have hmod : Nat.ModEq (2 ^ 32)
      (l.foldl (fun acc x => acc + x) 0 + b + r.foldl (fun acc x => acc + x) 0)
      (l.foldl (fun acc x => acc + x) 0 + c + r.foldl (fun acc x => acc + x) 0) := h1
  have hdvd := hmod.dvd
  push_cast at hdvd
  obtain ⟨k, hk⟩ := hdvd
  have hb2 : (b : Int) < 256 := by exact_mod_cast hb
  have hc2 : (c : Int) < 256 := by exact_mod_cast hc
  have hne2 : (b : Int) ≠ (c : Int) := by exact_mod_cast hne
  have hb0 : (0 : Int) ≤ (b : Int) := Int.ofNat_nonneg b
  have hc0 : (0 : Int) ≤ (c : Int) := Int.ofNat_nonneg c
  omega

/-- C1-style reduction of `readFull`: the payload read consumes exactly
the declared length. -/
theorem readFull_rest {n : Nat} {s payload rest2 : List Nat}
    (h : readFull n s = (some payload, rest2)) : rest2 = s.drop n := by
  unfold readFull at h
  exact ((Prod.mk.injEq _ _ _ _).mp h).2.symm

/-- C3: once the declared payload has been fully read, a checksum
mismatch against the leading four digest bytes is rejected with the
stream advanced exactly past the payload (no draining) and without the
message's decoder being invoked; in particular a payload with any single
byte flipped after the header checksum was computed is always rejected,
never decoded. -/
theorem readMessage_checksum_guard (pver btcnet : Nat) (s : List Nat)
    (hdr : MessageHeader) (rest payload rest2 : List Nat) (msg : Message)
    (hh : readMessageHeader s = (some hdr, rest))
    (hlen : hdr.length ≤ maxMessagePayload)
    (hmagic : hdr.magic = btcnet)
    (hutf : utf8Valid hdr.command = true)
    (hmk : makeEmptyMessage hdr.command = some msg)
    (hmpl : hdr.length ≤ msg.maxPayloadLength pver)
    (hpl : readFull hdr.length rest = (some payload, rest2)) :
    ((doubleSha256 payload).take 4 ≠ hdr.checksum →
      ReadMessage pver btcnet s = (.error .checksumMismatch, rest2) ∧
      rest2 = rest.drop hdr.length) ∧
    (∀ l b c r, payload = l ++ b :: r →
      hdr.checksum = (doubleSha256 (l ++ c :: r)).take 4 →
      b ≠ c → b < 256 → c < 256 →
      ReadMessage pver btcnet s = (.error .checksumMismatch, rest2)) := by
  have hmain : (doubleSha256 payload).take 4 ≠ hdr.checksum →
      ReadMessage pver btcnet s = (.error .checksumMismatch, rest2) := by
    intro hne
    simp only [ReadMessage, hh]
    rw [if_neg (by omega), if_neg (by simp [hmagic]), if_neg (by simp [hutf])]
    simp only [hmk]
    rw [if_neg (by omega)]
    simp only [hpl]
    rw [if_pos hne]
  refine ⟨fun hne => ⟨hmain hne, readFull_rest hpl⟩, ?_⟩
  intro l b c r hp hcs hne hb hc
  apply hmain
  rw [hp, hcs]
  exact doubleSha256_take4_flip l r b c hb hc hne

/-- Evaluating C3: a ping frame whose one-byte payload was flipped from
`7` to `5` after the checksum was computed is rejected at the checksum
check with nothing drained. -/
theorem readMessage_checksum_guard_witness :
    ReadMessage 0 1 (exPingHeader ++ [5]) = (.error .checksumMismatch, []) := by
  refine (readMessage_checksum_guard 0 1 (exPingHeader ++ [5])
    ⟨1, cmdPing, 1, [7, 0, 0, 0]⟩ [5] [5] [] .ping
    ?_ ?_ ?_ ?_ ?_ ?_ ?_).2 [] 5 7 [] ?_ ?_ ?_ ?_ ?_ <;> decide

/-! ## Element-level inverse lemmas for the primitive codec -/

theorem readUint32_writeUint32 (n : Nat) (r : List Nat) (h : n < 2 ^ 32) :
    readUint32 (writeUint32 n ++ r) = .ok (n, r) := by
  unfold readUint32 writeUint32
  simp only [readFull_append_of_length _ _ (natToBytesLE_length 4 n),
    bytesToNatLE_natToBytesLE]
  norm_num
  omega

theorem readUint64_writeUint64 (n : Nat) (r : List Nat) (h : n < 2 ^ 64) :
    readUint64 (writeUint64 n ++ r) = .ok (n, r) := by
  unfold readUint64 writeUint64
  simp only [readFull_append_of_length _ _ (natToBytesLE_length 8 n),
    bytesToNatLE_natToBytesLE]
  norm_num
  omega

theorem twosToInt_intToTwos_4 (i : Int) (h1 : -2147483648 ≤ i) (h2 : i < 2147483648) :
    twosToInt 4 (intToTwos 4 i) = i := by
  unfold twosToInt intToTwos
  norm_num
  split <;> omega

theorem twosToInt_intToTwos_8 (i : Int)
    (h1 : -9223372036854775808 ≤ i) (h2 : i < 9223372036854775808) :
    twosToInt 8 (intToTwos 8 i) = i := by
  unfold twosToInt intToTwos
  norm_num
  split <;> omega

theorem readInt32_writeInt32 (i : Int) (r : List Nat)
    (h1 : -2147483648 ≤ i) (h2 : i < 2147483648) :
    readInt32 (writeInt32 i ++ r) = .ok (i, r) := by
  unfold readInt32 writeInt32
  simp only [readFull_append_of_length _ _ (natToBytesLE_length 4 _),
    bytesToNatLE_natToBytesLE]
  have hlt : intToTwos 4 i < 2 ^ (8 * 4) := by
    unfold intToTwos
    have := Int.emod_lt_of_pos i (show (0 : Int) < 2 ^ (8 * 4) by norm_num)
    omega
  rw [Nat.mod_eq_of_lt hlt, twosToInt_intToTwos_4 i h1 h2]

theorem readInt64_writeInt64 (i : Int) (r : List Nat)
    (h1 : -9223372036854775808 ≤ i) (h2 : i < 9223372036854775808) :
    readInt64 (writeInt64 i ++ r) = .ok (i, r) := by
  unfold readInt64 writeInt64
  simp only [readFull_append_of_length _ _ (natToBytesLE_length 8 _),
    bytesToNatLE_natToBytesLE]
  have hlt : intToTwos 8 i < 2 ^ (8 * 8) := by
    unfold intToTwos
    have := Int.emod_lt_of_pos i (show (0 : Int) < 2 ^ (8 * 8) by norm_num)
    omega
  rw [Nat.mod_eq_of_lt hlt, twosToInt_intToTwos_8 i h1 h2]

theorem readUint16BE_writeUint16BE (p : Nat) (r : List Nat) (h : p < 65536) :
    readUint16BE (writeUint16BE p ++ r) = .ok (p, r) := by
  unfold readUint16BE writeUint16BE
  simp only [readFull_append_of_length [p / 256 % 256, p % 256] r
    (show ([p / 256 % 256, p % 256] : List Nat).length = 2 from rfl)]
  simp only [List.headI, List.drop_succ_cons, List.drop_zero]
  have hp : p / 256 % 256 * 256 + p % 256 = p := by omega
  rw [hp]

theorem readNetAddress_writeNetAddress (na : NetAddress) (r : List Nat)
    (hsv : na.services < 2 ^ 64) (hip : na.ip.length = 16) (hp : na.port < 65536) :
    readNetAddress (writeNetAddress na ++ r) = .ok (na, r) := by
  unfold readNetAddress writeNetAddress
  rw [List.append_assoc, List.append_assoc]
  simp only [readUint64_writeUint64 na.services _ hsv]
  simp only [readFull_append_of_length na.ip _ hip]
  simp only [readUint16BE_writeUint16BE na.port r hp]

theorem readVarInt_writeVarInt (n : Nat) (r : List Nat) (h : n < 2 ^ 64) :
    readVarInt (writeVarInt n ++ r) = .ok (n, r) := by
  unfold writeVarInt readVarInt
  by_cases h1 : n < 0xfd
  · rw [if_pos h1]
    simp only [readFull_append_of_length [n] r (show ([n] : List Nat).length = 1 from rfl),
      List.headI]
    rw [if_neg (by omega), if_neg (by omega), if_neg (by omega)]
  · rw [if_neg h1]
    by_cases h2 : n ≤ 0xffff
    · rw [if_pos h2, List.cons_append,
        show (253 : Nat) :: (natToBytesLE 2 n ++ r) = [253] ++ (natToBytesLE 2 n ++ r) from rfl]
      simp only [readFull_append_of_length [253] _
        (show ([253] : List Nat).length = 1 from rfl), List.headI]
      rw [if_pos trivial]
      simp only [readFull_append_of_length _ _ (natToBytesLE_length 2 n),
        bytesToNatLE_natToBytesLE]
      norm_num
      omega
    · rw [if_neg h2]
      by_cases h3 : n ≤ 0xffffffff
      · rw [if_pos h3, List.cons_append,
          show (254 : Nat) :: (natToBytesLE 4 n ++ r) = [254] ++ (natToBytesLE 4 n ++ r) from rfl]
        simp only [readFull_append_of_length [254] _
        (show ([254] : List Nat).length = 1 from rfl), List.headI]
        rw [if_pos trivial]
        simp only [readFull_append_of_length _ _ (natToBytesLE_length 4 n),
          bytesToNatLE_natToBytesLE]
        norm_num
        omega
      · rw [if_neg h3, List.cons_append,
          show (255 : Nat) :: (natToBytesLE 8 n ++ r) = [255] ++ (natToBytesLE 8 n ++ r) from rfl]
        simp only [readFull_append_of_length [255] _
        (show ([255] : List Nat).length = 1 from rfl), List.headI]
        rw [if_pos trivial]
        simp only [readFull_append_of_length _ _ (natToBytesLE_length 8 n),
          bytesToNatLE_natToBytesLE]
        norm_num
        omega

theorem readVarString_writeVarString (ua r : List Nat) (h : ua.length < 2 ^ 64) :
    readVarString (writeVarString ua ++ r) = .ok (ua, r) := by
  unfold readVarString writeVarString
  rw [List.append_assoc]
  simp only [readVarInt_writeVarInt ua.length _ h]
  simp only [readFull_append_of_length ua r rfl]

/-! ## C4, C6: the version message codec -/

/-- C4: decoding the bytes produced by encoding a version message with
valid field values reproduces every field exactly, except that the
timestamp comes back with its sub-second component zeroed — it
round-trips only to whole-second precision. -/
theorem msgVersion_roundtrip (m : MsgVersion)
    (hpv1 : -2147483648 ≤ m.protocolVersion) (hpv2 : m.protocolVersion < 2147483648)
    (hsv : m.services < 2 ^ 64)
    (hts1 : -9223372036854775808 ≤ m.timestamp.sec)
    (hts2 : m.timestamp.sec < 9223372036854775808)
    (hay1 : m.addrYou.services < 2 ^ 64) (hay2 : m.addrYou.ip.length = 16)
    (hay3 : m.addrYou.port < 65536)
    (ham1 : m.addrMe.services < 2 ^ 64) (ham2 : m.addrMe.ip.length = 16)
    (ham3 : m.addrMe.port < 65536)
    (hnonce : m.nonce < 2 ^ 64)
    (hua : m.userAgent.length ≤ MaxUserAgentLen)
    (hlb1 : -2147483648 ≤ m.lastBlock) (hlb2 : m.lastBlock < 2147483648) :
    ∃ out, msgVersionBtcEncode m = .ok out ∧
      msgVersionBtcDecode out =
        .ok ({ m with timestamp := ⟨m.timestamp.sec, 0⟩ }, []) := by
  have hua64 : m.userAgent.length < 2 ^ 64 := by
    unfold MaxUserAgentLen at hua; omega
  refine ⟨writeInt32 m.protocolVersion ++ writeUint64 m.services ++
    writeInt64 m.timestamp.sec ++ writeNetAddress m.addrYou ++
    writeNetAddress m.addrMe ++ writeUint64 m.nonce ++
    writeVarString m.userAgent ++ writeInt32 m.lastBlock, ?_, ?_⟩
  · unfold msgVersionBtcEncode
    rw [if_neg (by omega)]
  · unfold msgVersionBtcDecode
    simp only [List.append_assoc]
    rw [show writeInt32 m.lastBlock = writeInt32 m.lastBlock ++ []
      from (List.append_nil _).symm]
    simp only [readInt32_writeInt32 _ _ hpv1 hpv2, readUint64_writeUint64 _ _ hsv,
      readInt64_writeInt64 _ _ hts1 hts2,
      readNetAddress_writeNetAddress _ _ hay1 hay2 hay3,
      readNetAddress_writeNetAddress _ _ ham1 ham2 ham3,
      readUint64_writeUint64 _ _ hnonce,
      readVarString_writeVarString m.userAgent _ hua64]
    rw [if_neg (not_lt.mpr hua)]
    simp only [readInt32_writeInt32 _ _ hlb1 hlb2]

/-- Evaluating C4 on the spec's concrete handshake scenario; the
sub-second component 123 of the timestamp is dropped, everything else
comes back bit-exact. -/
theorem msgVersion_roundtrip_witness :
    ∃ out, msgVersionBtcEncode exMsgVersion = .ok out ∧
      msgVersionBtcDecode out =
        .ok ({ exMsgVersion with timestamp := ⟨1414012424, 0⟩ }, []) :=
  by refine msgVersion_roundtrip exMsgVersion ?_ ?_ ?_ ?_ ?_ ?_ ?_ ?_ ?_ ?_ ?_ ?_
       ?_ ?_ ?_ <;> decide

/-- C6: both directions enforce the user agent bound: encoding a message
whose user agent exceeds `MaxUserAgentLen` fails before anything reaches
the sink, and decoding a payload whose embedded user agent exceeds
`MaxUserAgentLen` fails even when every field around it is well
formed. -/
theorem msgVersion_userAgent_bound :
    (∀ m : MsgVersion, m.userAgent.length > MaxUserAgentLen →
      msgVersionBtcEncode m = .error (.userAgentTooLong false m.userAgent.length)) ∧
    (∀ (pv : Int) (sv : Nat) (sec : Int) (ay am : NetAddress) (nonce : Nat)
        (ua trail : List Nat),
      -2147483648 ≤ pv → pv < 2147483648 → sv < 2 ^ 64 →
      -9223372036854775808 ≤ sec → sec < 9223372036854775808 →
      ay.services < 2 ^ 64 → ay.ip.length = 16 → ay.port < 65536 →
      am.services < 2 ^ 64 → am.ip.length = 16 → am.port < 65536 →
      nonce < 2 ^ 64 → ua.length > MaxUserAgentLen → ua.length < 2 ^ 64 →
      msgVersionBtcDecode (writeInt32 pv ++ writeUint64 sv ++ writeInt64 sec ++
        writeNetAddress ay ++ writeNetAddress am ++ writeUint64 nonce ++
        writeVarString ua ++ trail) =
        .error (.userAgentTooLong true ua.length)) := by
  constructor
  · intro m hm
    unfold msgVersionBtcEncode
    rw [if_pos hm]
  · intro pv sv sec ay am nonce ua trail h1 h2 h3 h4 h5 h6 h7 h8 h9 h10 h11 h12 h13 h14
    unfold msgVersionBtcDecode
    simp only [List.append_assoc]
    simp only [readInt32_writeInt32 _ _ h1 h2, readUint64_writeUint64 _ _ h3,
      readInt64_writeInt64 _ _ h4 h5,
      readNetAddress_writeNetAddress _ _ h6 h7 h8,
      readNetAddress_writeNetAddress _ _ h9 h10 h11,
      readUint64_writeUint64 _ _ h12,
      readVarString_writeVarString ua _ h14]
    rw [if_pos h13]

/-- Evaluating C6: a 2001-byte user agent is rejected by the encoder,
and a payload embedding it is rejected by the decoder. -/
theorem msgVersion_userAgent_bound_witness :
    msgVersionBtcEncode exBadMsgVersion =
      .error (.userAgentTooLong false exBadMsgVersion.userAgent.length) ∧
    msgVersionBtcDecode (writeInt32 70001 ++ writeUint64 0 ++ writeInt64 1000 ++
      writeNetAddress exNetAddress ++ writeNetAddress exNetAddress ++ writeUint64 0 ++
      writeVarString exLongUserAgent ++ []) =
      .error (.userAgentTooLong true exLongUserAgent.length) :=
  ⟨msgVersion_userAgent_bound.1 exBadMsgVersion (by
      simp only [exBadMsgVersion, exLongUserAgent, MaxUserAgentLen,
        List.length_replicate]
      omega),
    by
      refine msgVersion_userAgent_bound.2 70001 0 1000 exNetAddress exNetAddress 0
        exLongUserAgent [] ?_ ?_ ?_ ?_ ?_ ?_ ?_ ?_ ?_ ?_ ?_ ?_ ?_ ?_ <;>
      first
      | (simp only [exLongUserAgent, MaxUserAgentLen, List.length_replicate]; omega)
      | decide⟩

/-! ## C5: the frame writer -/

/-- C5: `WriteMessage` checks in order — oversized command name, payload
encode failure, payload over the 32 MiB global ceiling, payload over the
type's own `MaxPayloadLength` — and each failure produces an error with
nothing written to the sink (the payload is encoded into an in-memory
buffer before any check); only when every check passes is the output the
header (network id, zero-padded command, length, leading four digest
bytes) followed by the payload bytes, in that order. -/
theorem writeMessage_spec (msg : MessageW) (pver btcnet : Nat) :
    (msg.command.length > commandSize →
      WriteMessage msg pver btcnet = .error .commandTooLong) ∧
    (∀ e, msg.command.length ≤ commandSize → msg.btcEncode pver = .error e →
      WriteMessage msg pver btcnet = .error (.encodeFailed e)) ∧
    (∀ payload, msg.command.length ≤ commandSize → msg.btcEncode pver = .ok payload →
      payload.length > maxMessagePayload →
      WriteMessage msg pver btcnet = .error .payloadTooLargeGlobal) ∧
    (∀ payload, msg.command.length ≤ commandSize → msg.btcEncode pver = .ok payload →
      payload.length ≤ maxMessagePayload → payload.length > msg.maxPayloadLength pver →
      WriteMessage msg pver btcnet = .error .payloadTooLargeForType) ∧
    (∀ payload, msg.command.length ≤ commandSize → msg.btcEncode pver = .ok payload →
      payload.length ≤ maxMessagePayload → payload.length ≤ msg.maxPayloadLength pver →
      WriteMessage msg pver btcnet =
        .ok (writeUint32 btcnet ++
          (msg.command ++ List.replicate (commandSize - msg.command.length) 0) ++
          writeUint32 payload.length ++ (doubleSha256 payload).take 4 ++ payload)) := by
  refine ⟨?_, ?_, ?_, ?_, ?_⟩
  · intro hc
    unfold WriteMessage
    rw [if_pos hc]
  · intro e hc he
    unfold WriteMessage
    rw [if_neg (by omega)]
    simp only [he]
  · intro payload hc he hg
    unfold WriteMessage
    rw [if_neg (by omega)]
    simp only [he]
    rw [if_pos hg]
  · intro payload hc he hg hm
    unfold WriteMessage
    rw [if_neg (by omega)]
    simp only [he]
    rw [if_neg (by omega), if_pos hm]
  · intro payload hc he hg hm
    unfold WriteMessage
    rw [if_neg (by omega)]
    simp only [he]
    rw [if_neg (by omega), if_neg (by omega)]

/-- Evaluating C5 on the version-message scenario over the main network
id: all checks pass and the output is header then payload. -/
theorem writeMessage_spec_witness :
    WriteMessage (Message.toW (.version exMsgVersion)) 70001 3652501241 =
      .ok (writeUint32 3652501241 ++
        (cmdVersion ++ List.replicate (commandSize - cmdVersion.length) 0) ++
        writeUint32 (writeInt32 exMsgVersion.protocolVersion ++
          writeUint64 exMsgVersion.services ++ writeInt64 exMsgVersion.timestamp.sec ++
          writeNetAddress exMsgVersion.addrYou ++ writeNetAddress exMsgVersion.addrMe ++
          writeUint64 exMsgVersion.nonce ++ writeVarString exMsgVersion.userAgent ++
          writeInt32 exMsgVersion.lastBlock).length ++
        (doubleSha256 (writeInt32 exMsgVersion.protocolVersion ++
          writeUint64 exMsgVersion.services ++ writeInt64 exMsgVersion.timestamp.sec ++
          writeNetAddress exMsgVersion.addrYou ++ writeNetAddress exMsgVersion.addrMe ++
          writeUint64 exMsgVersion.nonce ++ writeVarString exMsgVersion.userAgent ++
          writeInt32 exMsgVersion.lastBlock)).take 4 ++
        (writeInt32 exMsgVersion.protocolVersion ++
          writeUint64 exMsgVersion.services ++ writeInt64 exMsgVersion.timestamp.sec ++
          writeNetAddress exMsgVersion.addrYou ++ writeNetAddress exMsgVersion.addrMe ++
          writeUint64 exMsgVersion.nonce ++ writeVarString exMsgVersion.userAgent ++
          writeInt32 exMsgVersion.lastBlock)) :=
  by
  refine (writeMessage_spec (Message.toW (.version exMsgVersion)) 70001
      3652501241).2.2.2.2
    (writeInt32 exMsgVersion.protocolVersion ++ writeUint64 exMsgVersion.services ++
      writeInt64 exMsgVersion.timestamp.sec ++ writeNetAddress exMsgVersion.addrYou ++
      writeNetAddress exMsgVersion.addrMe ++ writeUint64 exMsgVersion.nonce ++
      writeVarString exMsgVersion.userAgent ++ writeInt32 exMsgVersion.lastBlock)
    ?_ ?_ ?_ ?_ <;> decide

/-- C7: `MaxPayloadLength(pver)` is the fixed-width field budget
(4 + 8 + 8 + 8 + 4 = 32 bytes) plus twice the per-version maximum
address-record size plus the maximum variable-length-integer size plus
`MaxUserAgentLen`. -/
theorem msgVersionMaxPayloadLength_spec (pver : Nat) :
    msgVersionMaxPayloadLength pver =
      (4 + 8 + 8 + 8 + 4) + 2 * maxNetAddressPayload pver +
        maxVarIntPayload + MaxUserAgentLen := by
  unfold msgVersionMaxPayloadLength
  ring

end Btcwire
